import Mathlib

/-!
Verification development for the Reconable Lite+ pipeline
(`src/agents-starter/src`: orchestrator, harvester, Brightdata scraper client,
canonical D1 memory, compliance agent, deterministic synthesis fallback).

The TypeScript sources are shallowly embedded as executable Lean definitions.
External effects (LLM replies, scraper snapshot outcomes, database write
failures) are modelled as oracle inputs packaged in a `World` record; fresh
`crypto.randomUUID()` identifiers are modelled by a monotone counter threaded
through the execution, and SHA-256 is modelled by an injective stand-in
(none of the verified properties depend on the digest value itself).
-/

namespace Reconable

/-- Whether the first character list starts with the second one. -/
def listStartsWith : List Char → List Char → Bool
  | _, [] => true
  | [], _ :: _ => false
  | a :: s, b :: t => a = b && listStartsWith s t

/-- Whether the second character list occurs as a contiguous sublist of the
first one (the empty pattern always occurs). -/
def listContainsSub : List Char → List Char → Bool
  | [], pat => pat.isEmpty
  | a :: rest, pat => listStartsWith (a :: rest) pat || listContainsSub rest pat

/-- Substring test, modelling the JavaScript `String.prototype.includes`. -/
def strContains (s pat : String) : Bool :=
  listContainsSub s.data pat.data

/-- Split a character list on a separator character; like the JavaScript
single-character `split`, consecutive separators produce empty chunks and
the empty input yields one empty chunk. -/
def splitChar (sep : Char) : List Char → List (List Char)
  | [] => [[]]
  | a :: rest =>
    let r := splitChar sep rest
    if a = sep then [] :: r
    else
      match r with
      | chunk :: more => (a :: chunk) :: more
      | [] => [[a]]

/-- JavaScript-style whitespace characters handled by `trim` (the inputs the
pipeline sees only contain these). -/
def isWsChar (c : Char) : Bool :=
  c = ' ' || c = '\t' || c = '\n' || c = '\r'

/-- Drop leading whitespace characters. -/
def dropLeadingWs : List Char → List Char
  | [] => []
  | a :: rest => if isWsChar a then dropLeadingWs rest else a :: rest

/-- Character-list model of `String.prototype.trim`. -/
def trimChars (l : List Char) : List Char :=
  (dropLeadingWs (dropLeadingWs l.reverse).reverse)

/-- The suffix of `s` that follows the first occurrence of `pat`, when `pat`
occurs at all. -/
def sufAfterSub : List Char → List Char → Option (List Char)
  | [], pat => if pat.isEmpty then some [] else none
  | a :: rest, pat =>
    if listStartsWith (a :: rest) pat then some ((a :: rest).drop pat.length)
    else sufAfterSub rest pat

/-- Comma join, modelling `Array.prototype.join(',')` on a list of tags. -/
def joinComma (tags : List String) : String :=
  String.intercalate "," tags

/-- Deterministic stand-in for `crypto.randomUUID()`: the `n`-th fresh
identifier produced during an execution. Distinct counters yield distinct
strings. -/
def uuidStr (n : Nat) : String :=
  "uuid-" ++ toString n

/-- Stand-in for `new Date().toISOString()`; timestamps never influence the
properties verified here, so a fixed instant is used. -/
def nowString : String :=
  "2024-01-01T00:00:00.000Z"

/-- Injective stand-in for the hex SHA-256 digest computed by
`HarvesterAgent.generateContentHash`. The source guarantees the hash is a
deterministic function of the raw content, which is the only property the
claims below rely on. -/
def sha256Hex (content : String) : String :=
  "sha256[" ++ content ++ "]"

/-! ## Data model (`src/agents-starter/src/memory/schema.ts`) -/

/-- Evidence `content_type` field: `'json' | 'html' | 'text'`. -/
inductive ContentType where
  | json
  | html
  | text
deriving DecidableEq, Repr

/-- Run lifecycle status, `SubjectRun['status']` in `memory/schema.ts`. -/
inductive RunStatus where
  | intake
  | discover
  | fetch
  | normalize
  | extract
  | verify
  | upsert
  | synthesize
  | publish
  | error
  | completed
deriving DecidableEq, Repr

/-- One claim candidate inside an extraction result (`ExtractionResult.claims`
entries in `memory/schema.ts`; the `entities` array is never consumed by the
pipeline and is omitted). -/
structure ClaimCand where
  predicate : String
  object : String
  confidence : ℚ
deriving DecidableEq, Repr

/-- Extraction result attached to evidence (`Evidence.extraction`). -/
structure Extraction where
  claims : List ClaimCand
deriving DecidableEq, Repr

/-- Evidence record (`Evidence` in `memory/schema.ts`). -/
structure Evidence where
  id : String
  subject_id : String
  source_url : String
  collected_at : String
  content_text : String
  content_type : ContentType
  hash : String
  extraction : Option Extraction
deriving DecidableEq, Repr

/-- Claim record (`Claim` in `memory/schema.ts`); `provenance_json` is the
serialized provenance string, `policy_tags` the comma-joined tag string. -/
structure Claim where
  id : String
  subject_id : String
  predicate : String
  object : String
  confidence : ℚ
  first_seen_at : String
  last_verified_at : String
  provenance_json : String
  policy_tags : String
deriving DecidableEq, Repr

/-- Subject run row (`SubjectRun` in `memory/schema.ts`). -/
structure SubjectRun where
  id : String
  subject_name : String
  user_id : String
  status : RunStatus
  evidence_count : Nat
  claims_count : Nat
  created_at : String
  updated_at : String
  error_message : Option String
deriving DecidableEq, Repr

/-- Verification result returned by the compliance agent
(`VerificationResult` in `memory/schema.ts`). -/
structure VerificationResult where
  approved : Bool
  redacted_content : Option String
  policy_tags : List String
  reason : Option String
deriving DecidableEq, Repr

/-- Provenance JSON built by `SubjectOrchestrator.extractClaimsFromEvidence`:
`JSON.stringify(\x7bsource, evidence_id, extracted_at\x7d)`. The values the
pipeline feeds in contain no characters that `JSON.stringify` would escape. -/
def mkProvenanceJson (source evidenceId extractedAt : String) : String :=
  "\x7b\"source\":\"" ++ source ++ "\",\"evidence_id\":\"" ++ evidenceId ++
    "\",\"extracted_at\":\"" ++ extractedAt ++ "\"\x7d"

/-- Recover the `evidence_id` field from a provenance string produced by
`mkProvenanceJson` (used only to state properties about stored claims). -/
def extractEvidenceId (provenance : String) : Option String :=
  match sufAfterSub provenance.data ("\"evidence_id\":\"".data) with
  | some rest => some ⟨rest.takeWhile (fun c => c ≠ '"')⟩
  | none => none

/-! ## Snapshot poll classification
(`BrightdataScraper.waitForCompletion`, `scraping/brightdata-scraper.ts`).

Each poll iteration fetches `GET /datasets/v3/snapshot/\x7bid\x7d`, parses the
JSON body, and classifies it. The classification logic is a pure function of
the parsed body, embedded here over a small JSON value type. -/

/-- Parsed JSON value (the body of a snapshot poll reply). -/
inductive Json where
  | null
  | bool (b : Bool)
  | num (q : ℚ)
  | str (s : String)
  | arr (elems : List Json)
  | obj (fields : List (String × Json))

/-- Field lookup, modelling JavaScript property access on a parsed body;
non-objects have no own properties (`snapshot.status` is `undefined`). -/
def lookupField : Json → String → Option Json
  | .obj fields, key => fields.lookup key
  | _, _ => none

/-- JavaScript truthiness of a JSON value. -/
def jsTruthy : Json → Bool
  | .null => false
  | .bool b => b
  | .num q => q ≠ 0
  | .str s => s ≠ ""
  | .arr _ => true
  | .obj _ => true

/-- Whether a JSON value equals a given JS string under strict equality. -/
def isStrEq (v : Json) (s : String) : Bool :=
  match v with
  | .str t => t = s
  | _ => false

/-- Outcome of classifying one poll reply body in `waitForCompletion`:
either the snapshot is done (with its data payload), terminally failed
(with the provider error), or the client waits one interval and re-polls. -/
inductive PollAction where
  | complete (data : Option Json)
  | failed (err : Option Json)
  | repoll

/-- Classification of one snapshot poll body, mirroring the body-handling in
`BrightdataScraper.waitForCompletion`:
with a truthy `status` field, `completed` returns `snapshot.data`,
`failed` surfaces `snapshot.error`, and `running`/`pending`/anything else
waits and re-polls; without a truthy `status` field, a bare array or a
non-empty object is treated as the completed data itself, and anything else
(including an empty object) waits and re-polls. A `null` body throws on
property access in the source, which the surrounding `catch` also turns
into a wait-and-re-poll. -/
def classifySnapshotBody (snapshot : Json) : PollAction :=
  match lookupField snapshot "status" with
  | some v =>
    if jsTruthy v then
      if isStrEq v "completed" then .complete (lookupField snapshot "data")
      else if isStrEq v "failed" then .failed (lookupField snapshot "error")
      else .repoll
    else
      classifyNoStatus snapshot
  | none => classifyNoStatus snapshot
where
  /-- The `else` branch of the status check: the body itself may be the data. -/
  classifyNoStatus : Json → PollAction
    | .arr elems => .complete (some (.arr elems))
    | .obj fields => if fields.length > 0 then .complete (some (.obj fields)) else .repoll
    | _ => .repoll

/-! ## Canonical memory (`src/agents-starter/src/memory/canonical.ts`)

`CanonicalMemory.createEvidence` takes an evidence record, generates a fresh
row id with `crypto.randomUUID()` (discarding the id the caller supplied),
and executes a plain `INSERT` — there is no lookup by `(subject, hash)` and
no `UPDATE` path. `createClaim` behaves the same way for claims. -/

/-- The `INSERT INTO evidence` performed by `CanonicalMemory.createEvidence`:
a new row is appended under the freshly generated id `evid_\x7buuid\x7d`;
the caller-supplied `ev.id` is overwritten. Returns the updated row list and
the next fresh-id counter. -/
def canonCreateEvidence (rows : List Evidence) (uuidN : Nat) (ev : Evidence) :
    List Evidence × Nat :=
  (rows ++ [{ ev with id := "evid_" ++ uuidStr uuidN }], uuidN + 1)

/-- The `INSERT INTO claims` performed by `CanonicalMemory.createClaim`:
a new row is appended under the freshly generated id `claim_\x7buuid\x7d`. -/
def canonCreateClaim (rows : List Claim) (uuidN : Nat) (c : Claim) :
    List Claim × Nat :=
  (rows ++ [{ c with id := "claim_" ++ uuidStr uuidN }], uuidN + 1)

/-- Partial update performed by `CanonicalMemory.updateSubjectRunStatus`:
status always, the counters and error message only when supplied, and the
`updated_at` timestamp is always bumped. -/
def updateRunRow (r : SubjectRun) (st : RunStatus)
    (evCount claimsCount : Option Nat) (errMsg : Option String) : SubjectRun :=
  { r with
    status := st
    evidence_count := evCount.getD r.evidence_count
    claims_count := claimsCount.getD r.claims_count
    error_message := match errMsg with
      | some m => some m
      | none => r.error_message
    updated_at := nowString }

/-! ## World of external effects

All nondeterminism of one pipeline execution, presented as oracles:
the scraper search snapshot, the per-invocation profile-scrape snapshots,
the per-invocation extraction and verification LLM replies, and per-write
failure flags for the canonical store, the vector store, and the run-status
updates. An oracle value of `none` (or a `true` failure flag) models the
corresponding `catch`-handled exception in the source. -/

/-- One item of `searchData.results` as consumed by
`HarvesterAgent.harvestEvidence` (its `url` field is the scrape target). -/
structure ProfileHit where
  url : String
deriving DecidableEq, Repr

/-- Oracle record for one pipeline execution. -/
structure World where
  /-- Outcome of the one `searchProfiles` trigger+poll: `none` means the
  trigger or snapshot failed, `some hits` the processed result list. -/
  searchOutcome : Option (List ProfileHit)
  /-- Outcome of the n-th `scrapeProfile` invocation: `none` means failure,
  `some content` the serialized profile JSON used as evidence content. -/
  scrapeOutcome : Nat → Option String
  /-- Reply of the n-th extraction LLM call: `none` models an HTTP error or
  unparseable JSON (the evidence then yields zero claims). -/
  extractOutcome : Nat → Option Extraction
  /-- Reply of the n-th verification LLM call: `none` models an HTTP error or
  unparseable JSON (the claim is then rejected with `error:verification_failed`). -/
  verifyOutcome : Nat → Option VerificationResult
  /-- Whether the n-th canonical row insert (`createEvidence`/`createClaim`)
  throws. -/
  canonFail : Nat → Bool
  /-- Whether the n-th vector-store upsert (embedding + store) throws. -/
  vecFail : Nat → Bool
  /-- Whether the n-th `updateSubjectRunStatus` write throws. -/
  statusFail : Nat → Bool

/-! ## Harvester (`src/agents-starter/src/agents/harvester.ts`)

`HarvesterAgent.harvestEvidence` drives the provider calls. Note that the
web-search tool calls `BrightdataScraper.scrapeWebContent`, which invokes
`this.triggerScraping(...)` — a method that does not exist anywhere in
`brightdata-scraper.ts` — so every web-search attempt throws a `TypeError`
before any provider request and is caught into a `success: false` result:
the web-search branch makes zero trigger calls and yields no evidence.
`searchProfiles` throws before its trigger request when the trimmed query
splits (on single spaces) into fewer than two parts. -/

/-- Run input type stored by `startRun` (`'linkedin' | 'search'`). -/
inductive InputType where
  | linkedin
  | search
deriving DecidableEq, Repr

/-- Number of parts of `searchQuery.trim().split(' ')` in
`BrightdataScraper.searchProfiles`. -/
def tokenCount (s : String) : Nat :=
  (splitChar ' ' (trimChars s.data)).length

/-- Evidence object built by `HarvesterAgent.createEvidence`: fresh
`evid_\x7buuid\x7d` id, subject, source, timestamp, content, kind, and the
SHA-256 content hash; no extraction yet. -/
def mkEvidence (uuidN : Nat) (subjectId sourceUrl content : String)
    (kind : ContentType) : Evidence :=
  { id := "evid_" ++ uuidStr uuidN
    subject_id := subjectId
    source_url := sourceUrl
    collected_at := nowString
    content_text := content
    content_type := kind
    hash := sha256Hex content
    extraction := none }

/-- Stand-in for `JSON.stringify` of the processed search results that become
the content of the `linkedin://search` evidence (an injective encoding; the
pipeline never re-parses this string). -/
def searchContent (hits : List ProfileHit) : String :=
  "search-results:" ++ String.intercalate "," (hits.map (fun h => h.url))

/-- Result of one `harvestEvidence` invocation: the collected evidence, the
`apiCallsUsed` counter (incremented only on success, as in the source), the
total number of trigger requests actually sent to the provider (failed ones
included), and the next fresh-id counter. -/
structure HarvestOut where
  evidence : List Evidence
  apiCallsUsed : Nat
  triggerCalls : Nat
  nextUuidN : Nat
deriving Repr

/-- The per-profile scrape fan-out inside `harvestEvidence`: iterate over the
sliced `profilesToScrape` list, breaking once `apiCallsUsed ≥ maxApiCalls`;
each iteration sends one trigger request, and only a successful scrape
appends evidence and increments `apiCallsUsed` (consuming one fresh id). -/
def scrapeProfilesLoop (w : World) (subjectName : String) (maxApiCalls : Nat) :
    List ProfileHit → Nat → Nat → Nat → HarvestOut
  | [], used, _, uuidN => ⟨[], used, 0, uuidN⟩
  | hit :: rest, used, scrapeIdx, uuidN =>
    if maxApiCalls ≤ used then ⟨[], used, 0, uuidN⟩
    else
      match w.scrapeOutcome scrapeIdx with
      | some content =>
        let ev := mkEvidence uuidN subjectName hit.url content .json
        let R := scrapeProfilesLoop w subjectName maxApiCalls rest (used + 1)
          (scrapeIdx + 1) (uuidN + 1)
        ⟨ev :: R.evidence, R.apiCallsUsed, R.triggerCalls + 1, R.nextUuidN⟩
      | none =>
        let R := scrapeProfilesLoop w subjectName maxApiCalls rest used
          (scrapeIdx + 1) uuidN
        ⟨R.evidence, R.apiCallsUsed, R.triggerCalls + 1, R.nextUuidN⟩

/-- `HarvesterAgent.harvestEvidence`. Direct path: when the input type is
`linkedin` and the subject contains a profile or company URL pattern, one
`scrapeProfile` call is made. Search path: the web search makes no provider
call (see above) and always fails; the LinkedIn search is attempted when the
budget guard `apiCallsUsed < maxApiCalls` holds, throwing before its trigger
when the query has fewer than two space-separated parts; on search success
the first `min(maxApiCalls - apiCallsUsed, 5)` result profiles are scraped. -/
def harvestEvidence (w : World) (subjectName : String) (inputType : InputType)
    (maxApiCalls : Nat) (uuidN : Nat) : HarvestOut :=
  if inputType = .linkedin ∧
      (strContains subjectName "linkedin.com/in/" ||
       strContains subjectName "linkedin.com/company/") then
    match w.scrapeOutcome 0 with
    | some content =>
      ⟨[mkEvidence uuidN subjectName subjectName content .json], 1, 1, uuidN + 1⟩
    | none => ⟨[], 0, 1, uuidN⟩
  else
    if 0 < maxApiCalls then
      if tokenCount subjectName < 2 then ⟨[], 0, 0, uuidN⟩
      else
        match w.searchOutcome with
        | none => ⟨[], 0, 1, uuidN⟩
        | some hits =>
          let searchEv := mkEvidence uuidN subjectName "linkedin://search"
            (searchContent hits) .json
          if 0 < hits.length then
            let remainingCalls := maxApiCalls - 1
            let toScrape := hits.take (min remainingCalls 5)
            let R := scrapeProfilesLoop w subjectName maxApiCalls toScrape 1 0 (uuidN + 1)
            ⟨searchEv :: R.evidence, R.apiCallsUsed, 1 + R.triggerCalls, R.nextUuidN⟩
          else ⟨[searchEv], 1, 1, uuidN + 1⟩
    else ⟨[], 0, 0, uuidN⟩

/-- The `maxApiCalls` value read back in `executeStateMachine`:
`await this.ctx.storage.get('maxApiCalls') as number || 5` turns a stored 0
into the default 5. -/
def effectiveMaxApiCalls (n : Nat) : Nat :=
  if n = 0 then 5 else n

/-! ## Compliance agent (`src/agents-starter/src/agents/compliance.ts`) -/

/-- `ComplianceAgent.containsSensitiveInformation`: the predicate is one of a
fixed sensitive list, or the lower-cased object contains one of a fixed list
of sensitive substrings. -/
def containsSensitiveInformation (c : Claim) : Bool :=
  (["has_email", "email_address", "contact_email", "phone_number",
    "address", "personal_id", "ssn", "social_security"].contains c.predicate)
  ||
  (["email", "phone", "address", "ssn", "social security",
    "personal", "private", "confidential"].any
      (fun s => listContainsSub (c.object.data.map Char.toLower) s.data))

/-- `ComplianceAgent.isPubliclyAvailable`: the provenance JSON string contains
one of the public source schemes. -/
def isPubliclyAvailable (c : Claim) : Bool :=
  ["linkedin://", "public://", "web://", "search://"].any
    (fun s => strContains c.provenance_json s)

/-- `ComplianceAgent.verifyClaim`. The decision and the base tag list come
from the verification LLM reply (`llmReply`); the agent then pushes
`source:linkedin_scraping` when the provenance string contains `linkedin://`,
`consent:public_data` when the provenance names a public scheme, and
`sensitive:pii` when the claim is sensitive. Any failure (HTTP error,
unparseable reply — modelled by `llmReply = none`) is caught and returned as
a rejection tagged `error:verification_failed`. No tag is ever derived from
the claim's confidence in this code path. -/
def verifyClaim (c : Claim) (llmReply : Option VerificationResult) :
    VerificationResult :=
  match llmReply with
  | none =>
    { approved := false
      redacted_content := none
      policy_tags := ["error:verification_failed"]
      reason := some "Verification failed" }
  | some vr =>
    let t1 := if strContains c.provenance_json "linkedin://" then
        vr.policy_tags ++ ["source:linkedin_scraping"] else vr.policy_tags
    let t2 := if isPubliclyAvailable c then
        t1 ++ ["consent:public_data"] else t1
    let t3 := if containsSensitiveInformation c then
        t2 ++ ["sensitive:pii"] else t2
    { vr with policy_tags := t3 }

/-- The deterministic tags `ComplianceAgent.verifyClaim` appends to the
LLM-returned tag list, in push order. -/
def deterministicTags (c : Claim) : List String :=
  (if strContains c.provenance_json "linkedin://" then
      ["source:linkedin_scraping"] else []) ++
  (if isPubliclyAvailable c then ["consent:public_data"] else []) ++
  (if containsSensitiveInformation c then ["sensitive:pii"] else [])

/-- Whether a single tag is a `verified:*` tag. -/
def isVerifiedTag (t : String) : Bool :=
  listStartsWith t.data "verified:".data

/-- Number of `verified:*` tags inside a comma-joined `policy_tags` string. -/
def countVerifiedTags (tags : String) : Nat :=
  ((splitChar ',' tags.data).filter (fun l => isVerifiedTag ⟨l⟩)).length

/-! ## Orchestrator stages (`SubjectOrchestrator`, the second document of
`src/agents-starter/src/linkedin-osint.ts`) -/

/-- Events recorded along one pipeline execution, in chronological order:
run-status writes and individual store writes (with their failure variants). -/
inductive Event where
  | status (st : RunStatus) (evCount claimsCount : Option Nat)
  | canonInsertEvidence (id : String)
  | canonInsertEvidenceFailed (id : String)
  | canonInsertClaim (id : String)
  | canonInsertClaimFailed (id : String)
  | vecUpsert (key : String)
  | vecUpsertFailed (key : String)
deriving DecidableEq, Repr

/-- Whether an event is a canonical-store row write (attempted or failed). -/
def Event.isCanonWrite : Event → Bool
  | .canonInsertEvidence _ => true
  | .canonInsertEvidenceFailed _ => true
  | .canonInsertClaim _ => true
  | .canonInsertClaimFailed _ => true
  | _ => false

/-- Whether an event is a canonical evidence-row insert that succeeded. -/
def Event.isCanonEvidenceInsert : Event → Bool
  | .canonInsertEvidence _ => true
  | _ => false

/-- Whether an event is a vector-store write (attempted or failed). -/
def Event.isVecWrite : Event → Bool
  | .vecUpsert _ => true
  | .vecUpsertFailed _ => true
  | _ => false

/-- True when the trace never performs a canonical-store row write after a
vector-store write has occurred: canonical writes strictly precede
best-effort vector writes. -/
def noCanonAfterVec : List Event → Bool
  | [] => true
  | e :: rest =>
    if e.isVecWrite then rest.all (fun x => !x.isCanonWrite)
    else noCanonAfterVec rest

/-- Claims built from an extraction result in
`SubjectOrchestrator.extractClaimsFromEvidence`: one claim per candidate,
with a fresh `claim_\x7buuid\x7d` id, the evidence subject, the candidate
predicate/object/confidence, both timestamps set to now, the provenance
JSON referencing the evidence id and source, and the initial
`extracted:ai` policy tag. -/
def mkClaimsFromExtraction (ev : Evidence) :
    List ClaimCand → Nat → List Claim × Nat
  | [], uuidN => ([], uuidN)
  | cand :: rest, uuidN =>
    let c : Claim :=
      { id := "claim_" ++ uuidStr uuidN
        subject_id := ev.subject_id
        predicate := cand.predicate
        object := cand.object
        confidence := cand.confidence
        first_seen_at := nowString
        last_verified_at := nowString
        provenance_json := mkProvenanceJson ev.source_url ev.id nowString
        policy_tags := "extracted:ai" }
    let r := mkClaimsFromExtraction ev rest (uuidN + 1)
    (c :: r.1, r.2)

/-- Result of the extract stage: the collected claims, the (possibly mutated)
in-memory evidence list, the evidence rows inserted into the canonical store
during the stage, the emitted events, and the advanced counters. -/
structure ExtractOut where
  claims : List Claim
  evidence : List Evidence
  rows : List Evidence
  events : List Event
  nextUuidN : Nat
  canonIdx : Nat
  extractIdx : Nat
deriving Repr

/-- `SubjectOrchestrator.extractClaimsFromEvidence`. Per evidence item: an
already-attached extraction is converted to claims directly; otherwise the
extraction LLM is called — a failed call (`none`) yields zero claims for that
item; a successful call attaches the extraction to the in-memory evidence
object and then re-persists it via `CanonicalMemory.createEvidence` (which
inserts a new row under a fresh id; the fresh id is generated before the
insert, so it is consumed even when the insert throws), and claims are built
only when that insert did not throw. Every failure is caught per item. -/
def extractStage (w : World) :
    List Evidence → Nat → Nat → Nat → ExtractOut
  | [], uuidN, canonIdx, extractIdx => ⟨[], [], [], [], uuidN, canonIdx, extractIdx⟩
  | ev :: rest, uuidN, canonIdx, extractIdx =>
    match ev.extraction with
    | some ex =>
      let r := mkClaimsFromExtraction ev ex.claims uuidN
      let R := extractStage w rest r.2 canonIdx extractIdx
      ⟨r.1 ++ R.claims, ev :: R.evidence, R.rows, R.events,
        R.nextUuidN, R.canonIdx, R.extractIdx⟩
    | none =>
      match w.extractOutcome extractIdx with
      | none =>
        let R := extractStage w rest uuidN canonIdx (extractIdx + 1)
        ⟨R.claims, ev :: R.evidence, R.rows, R.events,
          R.nextUuidN, R.canonIdx, R.extractIdx⟩
      | some ex =>
        let ev2 := { ev with extraction := some ex }
        if w.canonFail canonIdx then
          let R := extractStage w rest (uuidN + 1) (canonIdx + 1) (extractIdx + 1)
          ⟨R.claims, ev2 :: R.evidence, R.rows,
            .canonInsertEvidenceFailed ("evid_" ++ uuidStr uuidN) :: R.events,
            R.nextUuidN, R.canonIdx, R.extractIdx⟩
        else
          let row := { ev2 with id := "evid_" ++ uuidStr uuidN }
          let r := mkClaimsFromExtraction ev2 ex.claims (uuidN + 1)
          let R := extractStage w rest r.2 (canonIdx + 1) (extractIdx + 1)
          ⟨r.1 ++ R.claims, ev2 :: R.evidence, row :: R.rows,
            .canonInsertEvidence row.id :: R.events,
            R.nextUuidN, R.canonIdx, R.extractIdx⟩

/-- Outcome of one compliance-agent call as seen by the orchestrator loop:
either a verification result or a thrown exception (which the loop catches). -/
inductive AgentOutcome where
  | result (r : VerificationResult)
  | thrown
deriving Repr

/-- `SubjectOrchestrator.verifyClaims`: for each claim (indexed call to the
compliance agent), an approved result keeps the claim with its `policy_tags`
replaced by the comma-joined result tags; a rejection or a thrown exception
silently drops the claim. No other field is touched. -/
def verifyClaims (oracle : Nat → Claim → AgentOutcome) :
    List Claim → Nat → List Claim
  | [], _ => []
  | c :: cs, i =>
    match oracle i c with
    | .thrown => verifyClaims oracle cs (i + 1)
    | .result r =>
      if r.approved then
        { c with policy_tags := joinComma r.policy_tags } :: verifyClaims oracle cs (i + 1)
      else verifyClaims oracle cs (i + 1)

/-- Result of one canonical upsert loop: inserted rows, emitted events, and
the advanced fresh-id and canonical-write counters. -/
structure UpsertOut (α : Type) where
  rows : List α
  events : List Event
  nextUuidN : Nat
  canonIdx : Nat
deriving Repr

/-- Canonical-evidence loop of `SubjectOrchestrator.upsertClaimsAndEvidence`:
every evidence item is written via `CanonicalMemory.createEvidence`
(fresh row id consumed before the insert); a throwing write is caught,
logged, and skipped. -/
def upsertCanonEvidence (w : World) :
    List Evidence → Nat → Nat → UpsertOut Evidence
  | [], uuidN, canonIdx => ⟨[], [], uuidN, canonIdx⟩
  | ev :: rest, uuidN, canonIdx =>
    if w.canonFail canonIdx then
      let R := upsertCanonEvidence w rest (uuidN + 1) (canonIdx + 1)
      ⟨R.rows, .canonInsertEvidenceFailed ("evid_" ++ uuidStr uuidN) :: R.events,
        R.nextUuidN, R.canonIdx⟩
    else
      let row := { ev with id := "evid_" ++ uuidStr uuidN }
      let R := upsertCanonEvidence w rest (uuidN + 1) (canonIdx + 1)
      ⟨row :: R.rows, .canonInsertEvidence row.id :: R.events,
        R.nextUuidN, R.canonIdx⟩

/-- Canonical-claims loop of `upsertClaimsAndEvidence`, via
`CanonicalMemory.createClaim`; failures are caught and skipped. -/
def upsertCanonClaims (w : World) :
    List Claim → Nat → Nat → UpsertOut Claim
  | [], uuidN, canonIdx => ⟨[], [], uuidN, canonIdx⟩
  | c :: rest, uuidN, canonIdx =>
    if w.canonFail canonIdx then
      let R := upsertCanonClaims w rest (uuidN + 1) (canonIdx + 1)
      ⟨R.rows, .canonInsertClaimFailed ("claim_" ++ uuidStr uuidN) :: R.events,
        R.nextUuidN, R.canonIdx⟩
    else
      let row := { c with id := "claim_" ++ uuidStr uuidN }
      let R := upsertCanonClaims w rest (uuidN + 1) (canonIdx + 1)
      ⟨row :: R.rows, .canonInsertClaim row.id :: R.events,
        R.nextUuidN, R.canonIdx⟩

/-- Vector-store loops of `upsertClaimsAndEvidence` (evidence first, then
claims; each item is one embedding-plus-store attempt whose failure is
caught and logged as non-critical). -/
def vecUpsertLoop (w : World) : List String → Nat → List Event
  | [], _ => []
  | key :: rest, vecIdx =>
    (if w.vecFail vecIdx then Event.vecUpsertFailed key else Event.vecUpsert key) ::
      vecUpsertLoop w rest (vecIdx + 1)

/-- Result of one full `executeStateMachine` execution: the final run row,
the canonical store contents, the chronological event trace, and the total
number of provider trigger calls made. -/
structure RunOutcome where
  run : SubjectRun
  evidenceRows : List Evidence
  claimRows : List Claim
  trace : List Event
  triggerCalls : Nat
deriving Repr

/-- The run row created by `startRun` via `CanonicalMemory.createSubjectRun`
(status `intake`, zero counters, fixed web-scraping user); its id consumes
the first fresh identifier of the execution. -/
def mkRunRow (subjectName : String) : SubjectRun :=
  { id := "run_" ++ uuidStr 0
    subject_name := subjectName
    user_id := "web-scraping-user"
    status := .intake
    evidence_count := 0
    claims_count := 0
    created_at := nowString
    updated_at := nowString
    error_message := none }

/-- The catch-all of `executeStateMachine`: on an uncaught stage error the
orchestrator writes status `error` with the error message (this final write
is modelled as succeeding). -/
def errorOutcome (r : SubjectRun) (msg : String) (evRows : List Evidence)
    (clRows : List Claim) (trace : List Event) (trig : Nat) : RunOutcome :=
  { run := updateRunRow r .error none none (some msg)
    evidenceRows := evRows
    claimRows := clRows
    trace := trace ++ [.status .error none none]
    triggerCalls := trig }

/-- `SubjectOrchestrator.executeStateMachine`, started by `startRun` with the
stored input type and budget. Status writes happen in order `discover`,
`fetch`, `normalize` (with the evidence count), `extract`, `verify` (with
the claims count), `upsert`, `synthesize`, `publish`, `completed`; the n-th
write throws when `w.statusFail n`, which the surrounding catch turns into
an `error` write. Harvest, extraction, verification, and upsert absorb all
their per-item failures, so only a status-write failure reaches the catch. -/
def executeStateMachine (w : World) (subjectName : String)
    (inputTypeStored : InputType) (maxStored : Nat) : RunOutcome :=
  let run0 := mkRunRow subjectName
  if w.statusFail 0 then errorOutcome run0 "status write failed" [] [] [] 0 else
  let r1 := updateRunRow run0 .discover none none none
  let t1 : List Event := [.status .discover none none]
  if w.statusFail 1 then errorOutcome r1 "status write failed" [] [] t1 0 else
  let r2 := updateRunRow r1 .fetch none none none
  let t2 := t1 ++ [.status .fetch none none]
  let H := harvestEvidence w subjectName inputTypeStored
    (effectiveMaxApiCalls maxStored) 1
  if w.statusFail 2 then
    errorOutcome r2 "status write failed" [] [] t2 H.triggerCalls else
  let r3 := updateRunRow r2 .normalize (some H.evidence.length) none none
  let t3 := t2 ++ [.status .normalize (some H.evidence.length) none]
  if w.statusFail 3 then
    errorOutcome r3 "status write failed" [] [] t3 H.triggerCalls else
  let r4 := updateRunRow r3 .extract none none none
  let t4 := t3 ++ [.status .extract none none]
  let X := extractStage w H.evidence H.nextUuidN 0 0
  let t5 := t4 ++ X.events
  if w.statusFail 4 then
    errorOutcome r4 "status write failed" X.rows [] t5 H.triggerCalls else
  let r5 := updateRunRow r4 .verify none (some X.claims.length) none
  let t6 := t5 ++ [.status .verify none (some X.claims.length)]
  let V := verifyClaims (fun i c => .result (verifyClaim c (w.verifyOutcome i)))
    X.claims 0
  if w.statusFail 5 then
    errorOutcome r5 "status write failed" X.rows [] t6 H.triggerCalls else
  let r6 := updateRunRow r5 .upsert none none none
  let t7 := t6 ++ [.status .upsert none none]
  let UE := upsertCanonEvidence w X.evidence X.nextUuidN X.canonIdx
  let UC := upsertCanonClaims w V UE.nextUuidN UE.canonIdx
  let VT := vecUpsertLoop w
    (X.evidence.map (fun e => "evidence_" ++ e.id) ++
     V.map (fun c => "claim_" ++ c.id)) 0
  let evRows := X.rows ++ UE.rows
  let clRows := UC.rows
  let t8 := t7 ++ UE.events ++ UC.events ++ VT
  if w.statusFail 6 then
    errorOutcome r6 "status write failed" evRows clRows t8 H.triggerCalls else
  let r7 := updateRunRow r6 .synthesize none none none
  let t9 := t8 ++ [.status .synthesize none none]
  if w.statusFail 7 then
    errorOutcome r7 "status write failed" evRows clRows t9 H.triggerCalls else
  let r8 := updateRunRow r7 .publish none none none
  let t10 := t9 ++ [.status .publish none none]
  if w.statusFail 8 then
    errorOutcome r8 "status write failed" evRows clRows t10 H.triggerCalls else
  let r9 := updateRunRow r8 .completed none none none
  { run := r9
    evidenceRows := evRows
    claimRows := clRows
    trace := t10 ++ [.status .completed none none]
    triggerCalls := H.triggerCalls }

/-! ## Deterministic synthesis fallback
(`SubjectOrchestrator.generateSynthesis`, fallback branch).

The fallback parses the first evidence's JSON into `linkedInData` and computes
the profile analysis deterministically. Only the fields the completeness and
strength computations read are modelled: an absent field is `none`
(JavaScript `undefined`). -/

/-- Profile-shaped input to the fallback synthesis; list elements are opaque
because only counts are read. -/
structure ProfileData where
  about : Option String
  experience : Option (List String)
  education : Option (List String)
  followers : Option Int
  connections : Option Int
deriving DecidableEq, Repr

/-- JavaScript truthiness of an optional string field
(`undefined` and `""` are falsy). -/
def jsTruthyStr : Option String → Bool
  | some s => s ≠ ""
  | none => false

/-- The test `xs?.length > 0` on an optional array field
(`undefined > 0` is false). -/
def jsLenPos {α : Type} : Option (List α) → Bool
  | some l => 0 < l.length
  | none => false

/-- The test `n > 0` on an optional numeric field (`undefined > 0` is false). -/
def jsNumPos : Option Int → Bool
  | some n => 0 < n
  | none => false

/-- `completenessScore` from the fallback branch of `generateSynthesis`:
`Math.min((about ? 0.2 : 0) + (experience?.length > 0 ? 0.3 : 0) +
(education?.length > 0 ? 0.2 : 0) + (followers > 0 ? 0.15 : 0) +
(connections > 0 ? 0.15 : 0), 1.0)`. Exact rational arithmetic classifies
every presence combination identically to IEEE-754 evaluation here. -/
def completenessScore (p : ProfileData) : ℚ :=
  min ((if jsTruthyStr p.about then (2 : ℚ)/10 else 0) +
       (if jsLenPos p.experience then (3 : ℚ)/10 else 0) +
       (if jsLenPos p.education then (2 : ℚ)/10 else 0) +
       (if jsNumPos p.followers then (15 : ℚ)/100 else 0) +
       (if jsNumPos p.connections then (15 : ℚ)/100 else 0)) 1

/-- `profileStrength` from the fallback branch:
`completenessScore > 0.8 ? 'Strong' : > 0.6 ? 'Good' : > 0.4 ? 'Moderate'
: 'Weak'` — all comparisons are strict. -/
def profileStrength (p : ProfileData) : String :=
  if completenessScore p > (8 : ℚ)/10 then "Strong"
  else if completenessScore p > (6 : ℚ)/10 then "Good"
  else if completenessScore p > (4 : ℚ)/10 then "Moderate"
  else "Weak"

/-- Completeness score as the specification words it (for comparison with the
code): the weighted sum of presence indicators, clamped to the interval
[0, 1]. -/
def specCompletenessScore (p : ProfileData) : ℚ :=
  max 0 (min 1
    ((if jsTruthyStr p.about then (2 : ℚ)/10 else 0) +
     (if jsLenPos p.experience then (3 : ℚ)/10 else 0) +
     (if jsLenPos p.education then (2 : ℚ)/10 else 0) +
     (if jsNumPos p.followers then (15 : ℚ)/100 else 0) +
     (if jsNumPos p.connections then (15 : ℚ)/100 else 0)))

/-! ## Concrete instances used for witnesses and counterexamples -/

/-- Direct-profile subject used by the concrete executions. -/
def subjectUrl : String :=
  "https://www.linkedin.com/in/alice"

/-- Benign world: the profile scrape succeeds, the extraction LLM returns one
`works_at` candidate, the verification LLM approves with a `verified:high`
tag, and no store write fails. -/
def benignWorld : World :=
  { searchOutcome := none
    scrapeOutcome := fun _ => some "profile-json"
    extractOutcome := fun _ => some ⟨[⟨"works_at", "Google", 9/10⟩]⟩
    verifyOutcome := fun _ => some ⟨true, none, ["verified:high"], none⟩
    canonFail := fun _ => false
    vecFail := fun _ => false
    statusFail := fun _ => false }

/-- Like `benignWorld`, but the second canonical row insert — the
`createEvidence` call inside the upsert stage of the direct-profile run —
throws. -/
def failingUpsertWorld : World :=
  { benignWorld with canonFail := fun n => n == 1 }

/-- Like `benignWorld`, but the verification LLM approves with an empty tag
list. -/
def emptyTagsWorld : World :=
  { benignWorld with
    verifyOutcome := fun _ =>
      some { approved := true, redacted_content := none,
             policy_tags := [], reason := none } }

/-- A stored evidence row used by the `createEvidence` examples. -/
def evRowA : Evidence :=
  { id := "evid_existing"
    subject_id := "subj-1"
    source_url := subjectUrl
    collected_at := nowString
    content_text := "payload"
    content_type := .json
    hash := sha256Hex "payload"
    extraction := none }

/-- The same evidence as `evRowA` re-persisted with an extraction attached
(same subject and hash, as in the extractor re-persist path). -/
def evRowAX : Evidence :=
  { evRowA with extraction := some ⟨[]⟩ }

/-- A second harvested evidence record with the same subject and content
hash as `evRowA` (a within-run duplicate). -/
def evRowB : Evidence :=
  { evRowA with id := "evid_dup" }

/-- Claim whose provenance names the `linkedin://search` source (so the
deterministic compliance tags are non-empty). -/
def demoClaim : Claim :=
  { id := "claim_demo"
    subject_id := "subj-1"
    predicate := "works_at"
    object := "Google"
    confidence := 9/10
    first_seen_at := nowString
    last_verified_at := nowString
    provenance_json := mkProvenanceJson "linkedin://search" "evid_existing" nowString
    policy_tags := "extracted:ai" }

/-- Compliance-agent oracle that approves every claim with one tag. -/
def demoOracle : Nat → Claim → AgentOutcome :=
  fun _ _ => .result { approved := true, redacted_content := none,
                       policy_tags := ["verified:high"], reason := none }

/-- A verification LLM reply used by the `verifyClaim` witness. -/
def demoReply : VerificationResult :=
  { approved := true, redacted_content := none,
    policy_tags := ["verified:medium"], reason := none }

/-- The profile shape of end-to-end scenario 1 of the specification: about
text, one experience entry, no education, 5000 followers, 400 connections.
Its completeness sum is exactly 0.8. -/
def boundaryProfile : ProfileData :=
  { about := some "Builds things."
    experience := some ["Engineer at Acme"]
    education := some []
    followers := some 5000
    connections := some 400 }

/-! ## General lemmas about the embedded operations -/

/-- A run-status event never counts as a vector write, so it passes through
the ordering check. -/
theorem noCanonAfterVec_cons_status (st : RunStatus) (a b : Option Nat)
    (rest : List Event) :
    noCanonAfterVec (.status st a b :: rest) = noCanonAfterVec rest := by
  simp [noCanonAfterVec, Event.isVecWrite]

/-- Appending a vector-free prefix does not affect the canonical-before-vector
ordering check. -/
theorem noCanonAfterVec_append_noVec {A B : List Event}
    (h : A.all (fun e => !e.isVecWrite) = true) :
    noCanonAfterVec (A ++ B) = noCanonAfterVec B := by
  induction A with
  | nil => rfl
  | cons e rest ih =>
    rw [List.all_cons, Bool.and_eq_true] at h
    have hv : e.isVecWrite = false := by simpa using h.1
    rw [List.cons_append, noCanonAfterVec, hv]
    simpa using ih h.2

/-- A trace with no canonical writes trivially satisfies the ordering check. -/
theorem noCanonAfterVec_of_noCanon {B : List Event}
    (h : B.all (fun e => !e.isCanonWrite) = true) :
    noCanonAfterVec B = true := by
  induction B with
  | nil => rfl
  | cons e rest ih =>
    rw [List.all_cons, Bool.and_eq_true] at h
    rw [noCanonAfterVec]
    by_cases hv : e.isVecWrite
    · rw [if_pos hv]; exact h.2
    · rw [if_neg hv]; exact ih h.2

/-- The extract stage emits only canonical-store and no vector-store events. -/
theorem extractStage_events_noVec (w : World) (evs : List Evidence)
    (u c e : Nat) :
    ((extractStage w evs u c e).events).all (fun x => !x.isVecWrite) = true := by
  induction evs generalizing u c e with
  | nil => rfl
  | cons ev rest ih =>
    cases hE : ev.extraction with
    | some ex =>
      simpa [extractStage, hE] using
        ih (mkClaimsFromExtraction ev ex.claims u).2 c e
    | none =>
      cases hx : w.extractOutcome e with
      | none => simpa [extractStage, hE, hx] using ih u c (e + 1)
      | some ex =>
        by_cases hc : w.canonFail c
        · simpa [extractStage, hE, hx, hc, Event.isVecWrite] using
            ih (u + 1) (c + 1) (e + 1)
        · simpa [extractStage, hE, hx, hc, Event.isVecWrite] using
            ih (mkClaimsFromExtraction { ev with extraction := some ex }
                  ex.claims (u + 1)).2 (c + 1) (e + 1)

/-- The canonical-evidence upsert loop emits no vector-store events. -/
theorem upsertCanonEvidence_events_noVec (w : World) (evs : List Evidence)
    (u c : Nat) :
    ((upsertCanonEvidence w evs u c).events).all (fun x => !x.isVecWrite) = true := by
  induction evs generalizing u c with
  | nil => rfl
  | cons ev rest ih =>
    by_cases hc : w.canonFail c
    · simpa [upsertCanonEvidence, hc, Event.isVecWrite] using ih (u + 1) (c + 1)
    · simpa [upsertCanonEvidence, hc, Event.isVecWrite] using ih (u + 1) (c + 1)

/-- The canonical-claims upsert loop emits no vector-store events. -/
theorem upsertCanonClaims_events_noVec (w : World) (cs : List Claim)
    (u c : Nat) :
    ((upsertCanonClaims w cs u c).events).all (fun x => !x.isVecWrite) = true := by
  induction cs generalizing u c with
  | nil => rfl
  | cons cl rest ih =>
    by_cases hc : w.canonFail c
    · simpa [upsertCanonClaims, hc, Event.isVecWrite] using ih (u + 1) (c + 1)
    · simpa [upsertCanonClaims, hc, Event.isVecWrite] using ih (u + 1) (c + 1)

/-- The vector-store loop emits no canonical-store events. -/
theorem vecUpsertLoop_noCanon (w : World) (keys : List String) (v : Nat) :
    (vecUpsertLoop w keys v).all (fun x => !x.isCanonWrite) = true := by
  induction keys generalizing v with
  | nil => rfl
  | cons k rest ih =>
    by_cases hv : w.vecFail v
    · simpa [vecUpsertLoop, hv, Event.isCanonWrite] using ih (v + 1)
    · simpa [vecUpsertLoop, hv, Event.isCanonWrite] using ih (v + 1)

/-- The extract stage returns the in-memory evidence list unchanged in length
(items are possibly mutated, never added or removed). -/
theorem extractStage_evidence_length (w : World) (evs : List Evidence)
    (u c e : Nat) :
    (extractStage w evs u c e).evidence.length = evs.length := by
  induction evs generalizing u c e with
  | nil => rfl
  | cons ev rest ih =>
    cases hE : ev.extraction with
    | some ex =>
      simpa [extractStage, hE] using
        ih (mkClaimsFromExtraction ev ex.claims u).2 c e
    | none =>
      cases hx : w.extractOutcome e with
      | none => simpa [extractStage, hE, hx] using ih u c (e + 1)
      | some ex =>
        by_cases hc : w.canonFail c
        · simpa [extractStage, hE, hx, hc] using ih (u + 1) (c + 1) (e + 1)
        · simpa [extractStage, hE, hx, hc] using
            ih (mkClaimsFromExtraction { ev with extraction := some ex }
                  ex.claims (u + 1)).2 (c + 1) (e + 1)

/-- When no canonical write fails, the upsert loop inserts one evidence row
per in-memory evidence item. -/
theorem upsertCanonEvidence_rows_length (w : World)
    (hc : ∀ n, w.canonFail n = false) (evs : List Evidence) (u c : Nat) :
    (upsertCanonEvidence w evs u c).rows.length = evs.length := by
  induction evs generalizing u c with
  | nil => rfl
  | cons ev rest ih =>
    simpa [upsertCanonEvidence, hc c] using ih (u + 1) (c + 1)

/-- The fan-out loop sends at most one trigger request per listed profile. -/
theorem scrapeProfilesLoop_triggerCalls_le (w : World) (s : String) (m : Nat)
    (hits : List ProfileHit) (used sIdx u : Nat) :
    (scrapeProfilesLoop w s m hits used sIdx u).triggerCalls ≤ hits.length := by
  induction hits generalizing used sIdx u with
  | nil => exact Nat.le_refl 0
  | cons hit rest ih =>
    rw [scrapeProfilesLoop]
    by_cases hb : m ≤ used
    · rw [if_pos hb]; exact Nat.zero_le _
    · rw [if_neg hb]
      rcases w.scrapeOutcome sIdx with _ | content
      · simpa using Nat.succ_le_succ (ih used (sIdx + 1) u)
      · simpa using Nat.succ_le_succ (ih (used + 1) (sIdx + 1) (u + 1))

/-- Budget bound of the harvester: with a budget of at least one, the total
number of trigger requests sent to the provider — failed ones included —
never exceeds the budget. The web-search branch sends no request at all
(`scrapeWebContent` throws on the missing `triggerScraping` method before
any request), the profile search costs one request, and the fan-out is cut
to at most `min (budget - 1) 5` profiles before it starts. -/
theorem harvestEvidence_triggerCalls_le (w : World) (s : String)
    (t : InputType) (m u : Nat) (h : 1 ≤ m) :
    (harvestEvidence w s t m u).triggerCalls ≤ m := by
  have hm0 : 0 < m := Nat.lt_of_lt_of_le Nat.zero_lt_one h
  by_cases hd : t = .linkedin ∧
      (strContains s "linkedin.com/in/" || strContains s "linkedin.com/company/") = true
  · rw [harvestEvidence, if_pos hd]
    cases hs : w.scrapeOutcome 0 <;> dsimp only <;> exact h
  · rw [harvestEvidence, if_neg hd, if_pos hm0]
    by_cases ht : tokenCount s < 2
    · rw [if_pos ht]
      exact Nat.zero_le m
    · rw [if_neg ht]
      cases hS : w.searchOutcome with
      | none => exact h
      | some hits =>
        dsimp only
        by_cases hh : 0 < hits.length
        · rw [if_pos hh]
          dsimp only
          have h1 : (scrapeProfilesLoop w s m (hits.take (min (m - 1) 5)) 1 0 (u + 1)).triggerCalls
              ≤ (hits.take (min (m - 1) 5)).length :=
            scrapeProfilesLoop_triggerCalls_le w s m _ 1 0 (u + 1)
          have h2 : (hits.take (min (m - 1) 5)).length ≤ m - 1 := by
            calc (hits.take (min (m - 1) 5)).length ≤ min (m - 1) 5 := by simp
              _ ≤ m - 1 := Nat.min_le_left _ _
          omega
        · rw [if_neg hh]
          exact h

/-- With the `search` input type and a query of fewer than two
space-separated parts, the harvester sends no trigger request: the web
search fails before any request, and `searchProfiles` throws its
name-validation error before its trigger. -/
theorem harvestEvidence_one_token_no_calls (w : World) (s : String)
    (m u : Nat) (h : tokenCount s < 2) :
    (harvestEvidence w s .search m u).triggerCalls = 0 := by
  by_cases hm : 0 < m
  · rw [harvestEvidence, if_neg (by simp), if_pos hm, if_pos h]
  · rw [harvestEvidence, if_neg (by simp), if_neg hm]

/-! ## Claim C9 -/

/-- C9: during snapshot polling, a reply body with no `status` field is
classified as follows: an empty JSON object is treated as still pending (the
client re-polls after the interval), while a bare JSON array of length 0 is
treated as completed with the empty array as its data. -/
theorem snapshot_poll_empty_body_classification :
    classifySnapshotBody (Json.obj []) = PollAction.repoll ∧
    classifySnapshotBody (Json.arr []) = PollAction.complete (some (Json.arr [])) :=
  ⟨rfl, rfl⟩

/-! ## Claim C1 -/

/-- C1 (amended): in every run, canonical-store row writes (evidence and
claims, in the extract and upsert stages) all happen before any best-effort
vector-store write, and — as long as the run-status updates themselves do
not throw — the run always reaches `completed`: a vector-store write failure
never transitions the run to `error`, and neither does a canonical-store
`createEvidence`/`createClaim` failure inside a stage, because the
orchestrator catches and logs both per item. -/
theorem upsert_canonical_first_vector_best_effort (w : World) (s : String)
    (t : InputType) (m : Nat) (h : ∀ n, w.statusFail n = false) :
    noCanonAfterVec (executeStateMachine w s t m).trace = true ∧
    (executeStateMachine w s t m).run.status = RunStatus.completed := by
  rw [executeStateMachine]
  simp only [h, Bool.false_eq_true, if_false]
  constructor
  · simp only [List.cons_append, List.nil_append, List.append_assoc,
      List.singleton_append]
    simp only [noCanonAfterVec_cons_status]
    rw [noCanonAfterVec_append_noVec (extractStage_events_noVec w _ _ _ _)]
    simp only [noCanonAfterVec_cons_status]
    rw [noCanonAfterVec_append_noVec (upsertCanonEvidence_events_noVec w _ _ _)]
    rw [noCanonAfterVec_append_noVec (upsertCanonClaims_events_noVec w _ _ _)]
    apply noCanonAfterVec_of_noCanon
    rw [List.all_append]
    have hv := vecUpsertLoop_noCanon w (List.map (fun e => "evidence_" ++ e.id)
        (extractStage w (harvestEvidence w s t (effectiveMaxApiCalls m) 1).evidence
          (harvestEvidence w s t (effectiveMaxApiCalls m) 1).nextUuidN 0 0).evidence ++
      List.map (fun c => "claim_" ++ c.id)
        (verifyClaims (fun i c => AgentOutcome.result (verifyClaim c (w.verifyOutcome i)))
          (extractStage w (harvestEvidence w s t (effectiveMaxApiCalls m) 1).evidence
            (harvestEvidence w s t (effectiveMaxApiCalls m) 1).nextUuidN 0 0).claims 0)) 0
    rw [hv]
    simp [Event.isCanonWrite]
  · simp [updateRunRow]

/-- Witness for C1: the benign direct-profile run satisfies the hypothesis
and the conclusion. -/
theorem upsert_canonical_first_vector_best_effort_witness :
    (∀ n, benignWorld.statusFail n = false) ∧
    noCanonAfterVec (executeStateMachine benignWorld subjectUrl .linkedin 1).trace = true ∧
    (executeStateMachine benignWorld subjectUrl .linkedin 1).run.status =
      RunStatus.completed :=
  ⟨fun _ => rfl,
   (upsert_canonical_first_vector_best_effort benignWorld subjectUrl .linkedin 1
      (fun _ => rfl)).1,
   (upsert_canonical_first_vector_best_effort benignWorld subjectUrl .linkedin 1
      (fun _ => rfl)).2⟩

/-- Counterexample to C1 as stated: in the direct-profile run where the
canonical `createEvidence` write of the upsert stage throws (write index 1),
the failed canonical write is logged (one `canonInsertEvidenceFailed` event)
and the run still finishes in `completed`, not `error`. -/
theorem upsert_canonical_write_failure_still_completes :
    (executeStateMachine failingUpsertWorld subjectUrl .linkedin 1).run.status =
      RunStatus.completed ∧
    (executeStateMachine failingUpsertWorld subjectUrl .linkedin 1).trace.countP
      (fun e => e == Event.canonInsertEvidenceFailed ("evid_" ++ uuidStr 4)) = 1 ∧
    RunStatus.completed ≠ RunStatus.error := by
  decide

/-! ## Claim C2 -/

/-- C2 (amended): with any budget `m ≥ 1` supplied at `startRun`, the total
number of trigger calls sent to the scraper provider during the run —
counting failed calls as well — is at most `m`. (A supplied budget of 0 is
replaced by the default 5 by `executeStateMachine`; see the counterexample.) -/
theorem run_trigger_calls_within_budget (w : World) (s : String)
    (t : InputType) (m : Nat) (h : 1 ≤ m) :
    (executeStateMachine w s t m).triggerCalls ≤ m := by
  have hm : effectiveMaxApiCalls m = m := by
    rw [effectiveMaxApiCalls, if_neg (by omega)]
  have hH := harvestEvidence_triggerCalls_le w s t m 1 h
  rw [executeStateMachine, hm]
  by_cases h0 : w.statusFail 0 = true
  · rw [if_pos h0]; simp [errorOutcome]
  rw [if_neg h0]
  by_cases h1 : w.statusFail 1 = true
  · rw [if_pos h1]; simp [errorOutcome]
  rw [if_neg h1]
  by_cases h2 : w.statusFail 2 = true
  · rw [if_pos h2]; simp [errorOutcome]; exact hH
  rw [if_neg h2]
  by_cases h3 : w.statusFail 3 = true
  · rw [if_pos h3]; simp [errorOutcome]; exact hH
  rw [if_neg h3]
  by_cases h4 : w.statusFail 4 = true
  · rw [if_pos h4]; simp [errorOutcome]; exact hH
  rw [if_neg h4]
  by_cases h5 : w.statusFail 5 = true
  · rw [if_pos h5]; simp [errorOutcome]; exact hH
  rw [if_neg h5]
  by_cases h6 : w.statusFail 6 = true
  · rw [if_pos h6]; simp [errorOutcome]; exact hH
  rw [if_neg h6]
  by_cases h7 : w.statusFail 7 = true
  · rw [if_pos h7]; simp [errorOutcome]; exact hH
  rw [if_neg h7]
  by_cases h8 : w.statusFail 8 = true
  · rw [if_pos h8]; simp [errorOutcome]; exact hH
  rw [if_neg h8]
  simpa using hH

/-- Witness for C2: a search run with budget 5 stays within 5 trigger calls. -/
theorem run_trigger_calls_within_budget_witness :
    1 ≤ 5 ∧ (executeStateMachine benignWorld "Alice Example" .search 5).triggerCalls ≤ 5 :=
  ⟨by decide,
   run_trigger_calls_within_budget benignWorld "Alice Example" .search 5 (by decide)⟩

/-- Counterexample to C2 as stated: with `max_api_calls = 0` supplied at
`startRun` and a direct profile URL, the stored 0 is read back as the
default 5 (`storage.get(...) || 5`) and one trigger call is made — more than
the supplied budget. -/
theorem run_trigger_calls_exceed_zero_budget :
    (executeStateMachine benignWorld subjectUrl .linkedin 0).triggerCalls = 1 ∧
    ¬ (1 ≤ 0) := by
  decide

/-! ## Claim C3 -/

/-- C3 (code bug): in the benign direct-profile run, the single stored claim
carries provenance `evidence_id = evid_uuid-1` — the id the harvester gave
the in-memory evidence object — but `CanonicalMemory.createEvidence`
discards the caller's id and inserts every evidence row under a freshly
generated id, so no evidence row in the canonical store has that id (the two
rows stored for this run are `evid_uuid-2` and `evid_uuid-4`). The claimed
referential invariant fails on every run that stores a claim. -/
theorem stored_claim_provenance_references_no_stored_evidence :
    ((executeStateMachine benignWorld subjectUrl .linkedin 1).claimRows.map
      (fun c => extractEvidenceId c.provenance_json)) = [some "evid_uuid-1"] ∧
    (executeStateMachine benignWorld subjectUrl .linkedin 1).evidenceRows.all
      (fun e => e.id ≠ "evid_uuid-1") = true ∧
    ((executeStateMachine benignWorld subjectUrl .linkedin 1).evidenceRows.map
      (fun e => e.id)) = ["evid_uuid-2", "evid_uuid-4"] := by
  decide

/-! ## Claim C4 -/

/-- C4 (amended): for a search run whose subject has exactly one
space-separated token, no trigger call is made to the scraper provider —
the web search throws before any request (missing `triggerScraping` method)
and `searchProfiles` throws its two-token validation error before its
trigger — but the failures are absorbed per item, so the run does not abort:
with working status writes it proceeds through every stage to `completed`
instead of erroring at intake. -/
theorem one_token_search_no_calls_run_completes (w : World) (s : String)
    (m : Nat) (h1 : tokenCount s = 1) (h : ∀ n, w.statusFail n = false) :
    (executeStateMachine w s .search m).triggerCalls = 0 ∧
    (executeStateMachine w s .search m).run.status = RunStatus.completed := by
  have ht : tokenCount s < 2 := by omega
  have h0 := harvestEvidence_one_token_no_calls w s (effectiveMaxApiCalls m) 1 ht
  rw [executeStateMachine]
  simp only [h, Bool.false_eq_true, if_false]
  constructor
  · simpa using h0
  · simp [updateRunRow]

/-- Witness for C4: the subject `"Alice"` has one token and its search run
makes no trigger call and completes. -/
theorem one_token_search_no_calls_run_completes_witness :
    tokenCount "Alice" = 1 ∧
    (executeStateMachine benignWorld "Alice" .search 5).triggerCalls = 0 ∧
    (executeStateMachine benignWorld "Alice" .search 5).run.status =
      RunStatus.completed :=
  ⟨by decide,
   (one_token_search_no_calls_run_completes benignWorld "Alice" 5 (by decide)
      (fun _ => rfl)).1,
   (one_token_search_no_calls_run_completes benignWorld "Alice" 5 (by decide)
      (fun _ => rfl)).2⟩

/-- Counterexample to C4 as stated: the one-token search run for `"Alice"`
makes no trigger call but ends in `completed`, not in `error` — no
`InputInvalid` abort exists in the code path. -/
theorem one_token_search_run_not_error :
    (executeStateMachine benignWorld "Alice" .search 5).triggerCalls = 0 ∧
    (executeStateMachine benignWorld "Alice" .search 5).run.status =
      RunStatus.completed ∧
    RunStatus.completed ≠ RunStatus.error := by
  decide

/-! ## Claim C5 -/

/-- C5 (amended): `CanonicalMemory.createEvidence` is not idempotent on
`(subject, hash)`: every call appends one more row whose subject and hash
are the caller's (so a duplicate `(subject, hash)` strictly grows the number
of matching rows), and existing rows — including the row that would have to
be updated in place when the same evidence is re-persisted with an
extraction attached — are left untouched. -/
theorem createEvidence_always_inserts_new_row (rows : List Evidence) (u : Nat)
    (ev : Evidence) :
    (((canonCreateEvidence rows u ev).1.filter
        (fun e => e.subject_id == ev.subject_id && e.hash == ev.hash)).length =
      (rows.filter (fun e => e.subject_id == ev.subject_id && e.hash == ev.hash)).length
        + 1) ∧
    ∀ e ∈ rows, e ∈ (canonCreateEvidence rows u ev).1 := by
  constructor
  · rw [canonCreateEvidence]
    simp [List.filter_append]
  · intro e he
    rw [canonCreateEvidence]
    exact List.mem_append_left _ he

/-- Witness for C5: inserting the duplicate `evRowB` next to the stored
`evRowA` leaves `evRowA` in the table. -/
theorem createEvidence_always_inserts_new_row_witness :
    evRowA ∈ [evRowA] ∧ evRowA ∈ (canonCreateEvidence [evRowA] 0 evRowB).1 :=
  ⟨by decide,
   (createEvidence_always_inserts_new_row [evRowA] 0 evRowB).2 evRowA (by decide)⟩

/-- Counterexample to C5 as stated: writing evidence with the same
`(subject, hash)` as the stored row `evRowA` is not a no-op (the store
changes), and re-persisting the same evidence with an extraction attached
does not update the existing row in place — the row with the original id
still has no extraction and a second row is added. -/
theorem createEvidence_not_idempotent_on_subject_hash :
    (canonCreateEvidence [evRowA] 0 evRowB).1 ≠ [evRowA] ∧
    ((canonCreateEvidence [evRowA] 0 evRowAX).1.filter
      (fun e => e.id == evRowA.id)) = [evRowA] ∧
    (canonCreateEvidence [evRowA] 0 evRowAX).1.length = 2 := by
  decide

/-! ## Claim C6 -/

/-- C6 (amended): `ComplianceAgent.verifyClaim` takes its decision and its
base tag list from the verification LLM reply and only appends the
deterministic tags `source:linkedin_scraping` (provenance contains
`linkedin://`), `consent:public_data` (public source scheme), and
`sensitive:pii` (sensitive claim); none of the deterministic tags is a
`verified:*` tag, so a stored claim carries a `verified:{high|medium|low}`
tag only if the LLM chose to return one — nothing in the code derives such
a tag from the claim's confidence, and the tag set may even be empty. A
failed LLM call yields a rejection tagged `error:verification_failed`. -/
theorem verifyClaim_tags_llm_plus_deterministic (c : Claim)
    (vr : VerificationResult) :
    (verifyClaim c (some vr)).approved = vr.approved ∧
    (verifyClaim c (some vr)).policy_tags = vr.policy_tags ++ deterministicTags c ∧
    (∀ t ∈ deterministicTags c, isVerifiedTag t = false) ∧
    verifyClaim c none =
      { approved := false, redacted_content := none,
        policy_tags := ["error:verification_failed"],
        reason := some "Verification failed" } := by
  refine ⟨rfl, ?_, ?_, rfl⟩
  · by_cases hs : strContains c.provenance_json "linkedin://" = true <;>
    by_cases hp : isPubliclyAvailable c = true <;>
    by_cases hsen : containsSensitiveInformation c = true <;>
    simp [verifyClaim, deterministicTags, hs, hp, hsen]
  · intro x hx
    have hx' : x = "source:linkedin_scraping" ∨ x = "consent:public_data" ∨
        x = "sensitive:pii" := by
      rw [deterministicTags] at hx
      rcases List.mem_append.mp hx with h1 | h2
      · rcases List.mem_append.mp h1 with ha | hb
        · revert ha; split
          · intro ha; simp at ha; simp [ha]
          · intro ha; simp at ha
        · revert hb; split
          · intro hb; simp at hb; simp [hb]
          · intro hb; simp at hb
      · revert h2; split
        · intro h2; simp at h2; simp [h2]
        · intro h2; simp at h2
    rcases hx' with h | h | h <;> subst h <;> rfl

/-- Witness for C6: for `demoClaim` (whose provenance names
`linkedin://search`), `source:linkedin_scraping` is among the deterministic
tags, and it is not a `verified:*` tag. -/
theorem verifyClaim_tags_llm_plus_deterministic_witness :
    "source:linkedin_scraping" ∈ deterministicTags demoClaim ∧
    isVerifiedTag "source:linkedin_scraping" = false :=
  ⟨by decide,
   (verifyClaim_tags_llm_plus_deterministic demoClaim demoReply).2.2.1
     "source:linkedin_scraping" (by decide)⟩

/-- Counterexample to C6 as stated: in the direct-profile run where the
verification LLM approves with an empty tag list, the stored claim's
`policy_tags` is the empty string — no tag at all, in particular zero
`verified:*` tags, and no source tag, because the profile-URL provenance
contains `linkedin.com` but none of the schemes the deterministic rules
look for. -/
theorem stored_claim_policy_tags_empty :
    ((executeStateMachine emptyTagsWorld subjectUrl .linkedin 1).claimRows.map
      (fun c => c.policy_tags)) = [""] ∧
    ((executeStateMachine emptyTagsWorld subjectUrl .linkedin 1).claimRows.map
      (fun c => countVerifiedTags c.policy_tags)) = [0] := by
  decide

/-! ## Claim C7 -/

/-- C7 (amended): when the orchestrator advances a run out of the fetch
stage, the `normalize` status write carries the number of harvested evidence
records (also when that number is 0) — but none of the harvested evidence
has been persisted at that point: the first three events of every run are
the `discover`, `fetch`, and `normalize` status writes with no canonical
insert among them. The evidence rows are written only later (extract and
upsert stages): when no canonical write fails, the final store holds at
least as many evidence rows as were harvested. -/
theorem normalize_entered_before_evidence_persisted (w : World) (s : String)
    (t : InputType) (m : Nat) (h : ∀ n, w.statusFail n = false) :
    (executeStateMachine w s t m).trace.take 3 =
      [.status .discover none none, .status .fetch none none,
       .status .normalize
         (some (harvestEvidence w s t (effectiveMaxApiCalls m) 1).evidence.length) none] ∧
    ((∀ n, w.canonFail n = false) →
      (harvestEvidence w s t (effectiveMaxApiCalls m) 1).evidence.length ≤
        (executeStateMachine w s t m).evidenceRows.length) := by
  rw [executeStateMachine]
  simp only [h, Bool.false_eq_true, if_false]
  constructor
  · simp [List.take]
  · intro hc
    have hlen1 := extractStage_evidence_length w
      (harvestEvidence w s t (effectiveMaxApiCalls m) 1).evidence
      (harvestEvidence w s t (effectiveMaxApiCalls m) 1).nextUuidN 0 0
    have hlen2 := upsertCanonEvidence_rows_length w hc
      (extractStage w (harvestEvidence w s t (effectiveMaxApiCalls m) 1).evidence
        (harvestEvidence w s t (effectiveMaxApiCalls m) 1).nextUuidN 0 0).evidence
      (extractStage w (harvestEvidence w s t (effectiveMaxApiCalls m) 1).evidence
        (harvestEvidence w s t (effectiveMaxApiCalls m) 1).nextUuidN 0 0).nextUuidN
      (extractStage w (harvestEvidence w s t (effectiveMaxApiCalls m) 1).evidence
        (harvestEvidence w s t (effectiveMaxApiCalls m) 1).nextUuidN 0 0).canonIdx
    simp only [List.length_append]
    omega

/-- Witness for C7: the benign direct-profile run enters `normalize` with
count 1 and ends with at least one evidence row. -/
theorem normalize_entered_before_evidence_persisted_witness :
    (∀ n, benignWorld.statusFail n = false) ∧
    (executeStateMachine benignWorld subjectUrl .linkedin 1).trace.take 3 =
      [.status .discover none none, .status .fetch none none,
       .status .normalize
         (some (harvestEvidence benignWorld subjectUrl .linkedin
           (effectiveMaxApiCalls 1) 1).evidence.length) none] ∧
    (harvestEvidence benignWorld subjectUrl .linkedin
        (effectiveMaxApiCalls 1) 1).evidence.length ≤
      (executeStateMachine benignWorld subjectUrl .linkedin 1).evidenceRows.length :=
  ⟨fun _ => rfl,
   (normalize_entered_before_evidence_persisted benignWorld subjectUrl .linkedin 1
      (fun _ => rfl)).1,
   (normalize_entered_before_evidence_persisted benignWorld subjectUrl .linkedin 1
      (fun _ => rfl)).2 (fun _ => rfl)⟩

/-- Counterexample to C7 as stated: in the benign direct-profile run one
evidence record is harvested, yet when the run advances into `normalize`
(the third status write, carrying evidence count 1) not a single
`CreateEvidence` insert has happened — the first three events contain no
canonical evidence insert. -/
theorem normalize_entered_with_nothing_persisted :
    (executeStateMachine benignWorld subjectUrl .linkedin 1).trace.take 3 =
      [.status .discover none none, .status .fetch none none,
       .status .normalize (some 1) none] ∧
    ((executeStateMachine benignWorld subjectUrl .linkedin 1).trace.take 3).countP
      (fun e => e.isCanonEvidenceInsert) = 0 := by
  decide

/-! ## Claim C8 -/

/-- C8 (amended): the deterministic fallback's completeness score equals the
specification formula — the weighted presence sum clamped to [0, 1] (the
code's `Math.min(sum, 1.0)` coincides with the clamp because the sum is
nonnegative) — but all three strength thresholds are strict: `Strong`
exactly when the score exceeds 0.8, `Good` when it exceeds 0.6 without
exceeding 0.8, `Moderate` when it exceeds 0.4 without exceeding 0.6, and
`Weak` when it is at most 0.4. At a score of exactly 0.8 the code yields
`Good`, not `Strong` as the claim's `≥` thresholds would require. -/
theorem fallback_completeness_formula_strength_strict (p : ProfileData) :
    completenessScore p = specCompletenessScore p ∧
    (profileStrength p = "Strong" ↔ (8 : ℚ)/10 < specCompletenessScore p) ∧
    (profileStrength p = "Good" ↔
      ((6 : ℚ)/10 < specCompletenessScore p ∧ specCompletenessScore p ≤ (8 : ℚ)/10)) ∧
    (profileStrength p = "Moderate" ↔
      ((4 : ℚ)/10 < specCompletenessScore p ∧ specCompletenessScore p ≤ (6 : ℚ)/10)) ∧
    (profileStrength p = "Weak" ↔ specCompletenessScore p ≤ (4 : ℚ)/10) := by
  have n1 : (0 : ℚ) ≤ if jsTruthyStr p.about then (2 : ℚ)/10 else 0 := by
    split <;> norm_num
  have n2 : (0 : ℚ) ≤ if jsLenPos p.experience then (3 : ℚ)/10 else 0 := by
    split <;> norm_num
  have n3 : (0 : ℚ) ≤ if jsLenPos p.education then (2 : ℚ)/10 else 0 := by
    split <;> norm_num
  have n4 : (0 : ℚ) ≤ if jsNumPos p.followers then (15 : ℚ)/100 else 0 := by
    split <;> norm_num
  have n5 : (0 : ℚ) ≤ if jsNumPos p.connections then (15 : ℚ)/100 else 0 := by
    split <;> norm_num
  have h0 := add_nonneg (add_nonneg (add_nonneg (add_nonneg n1 n2) n3) n4) n5
  have heq : completenessScore p = specCompletenessScore p := by
    rw [completenessScore, specCompletenessScore, min_comm]
    exact (max_eq_right (le_min (by norm_num) h0)).symm
  have hx : profileStrength p =
      (if (8 : ℚ)/10 < specCompletenessScore p then "Strong"
       else if (6 : ℚ)/10 < specCompletenessScore p then "Good"
       else if (4 : ℚ)/10 < specCompletenessScore p then "Moderate" else "Weak") := by
    rw [profileStrength, heq]
  rcases lt_or_le ((8 : ℚ)/10) (specCompletenessScore p) with h1 | h1
  · have hs : profileStrength p = "Strong" := by rw [hx, if_pos h1]
    refine ⟨heq, ⟨fun _ => h1, fun _ => hs⟩, ?_, ?_, ?_⟩
    · constructor
      · intro hg; rw [hs] at hg; exact absurd hg (by simp)
      · intro hg; exfalso; linarith [hg.2]
    · constructor
      · intro hg; rw [hs] at hg; exact absurd hg (by simp)
      · intro hg; exfalso; linarith [hg.2]
    · constructor
      · intro hg; rw [hs] at hg; exact absurd hg (by simp)
      · intro hg; exfalso; linarith
  · rcases lt_or_le ((6 : ℚ)/10) (specCompletenessScore p) with h2 | h2
    · have hs : profileStrength p = "Good" := by
        rw [hx, if_neg (not_lt.mpr h1), if_pos h2]
      refine ⟨heq, ?_, ⟨fun _ => ⟨h2, h1⟩, fun _ => hs⟩, ?_, ?_⟩
      · constructor
        · intro hg; rw [hs] at hg; exact absurd hg (by simp)
        · intro hg; exfalso; linarith
      · constructor
        · intro hg; rw [hs] at hg; exact absurd hg (by simp)
        · intro hg; exfalso; linarith [hg.2]
      · constructor
        · intro hg; rw [hs] at hg; exact absurd hg (by simp)
        · intro hg; exfalso; linarith
    · rcases lt_or_le ((4 : ℚ)/10) (specCompletenessScore p) with h3 | h3
      · have hs : profileStrength p = "Moderate" := by
          rw [hx, if_neg (not_lt.mpr h1), if_neg (not_lt.mpr h2), if_pos h3]
        refine ⟨heq, ?_, ?_, ⟨fun _ => ⟨h3, h2⟩, fun _ => hs⟩, ?_⟩
        · constructor
          · intro hg; rw [hs] at hg; exact absurd hg (by simp)
          · intro hg; exfalso; linarith
        · constructor
          · intro hg; rw [hs] at hg; exact absurd hg (by simp)
          · intro hg; exfalso; linarith [hg.1]
        · constructor
          · intro hg; rw [hs] at hg; exact absurd hg (by simp)
          · intro hg; exfalso; linarith
      · have hs : profileStrength p = "Weak" := by
          rw [hx, if_neg (not_lt.mpr h1), if_neg (not_lt.mpr h2),
            if_neg (not_lt.mpr h3)]
        refine ⟨heq, ?_, ?_, ?_, ⟨fun _ => h3, fun _ => hs⟩⟩
        · constructor
          · intro hg; rw [hs] at hg; exact absurd hg (by simp)
          · intro hg; exfalso; linarith
        · constructor
          · intro hg; rw [hs] at hg; exact absurd hg (by simp)
          · intro hg; exfalso; linarith [hg.1]
        · constructor
          · intro hg; rw [hs] at hg; exact absurd hg (by simp)
          · intro hg; exfalso; linarith [hg.1]

/-- Counterexample to C8 as stated: the profile of end-to-end scenario 1
(about text, one experience, no education, positive followers and
connections) has completeness score exactly 0.8, yet the code classifies it
as `Good` — the claim's `≥ 0.8 → Strong` rule does not hold. -/
theorem completeness_point_eight_classified_good :
    completenessScore boundaryProfile = (8 : ℚ)/10 ∧
    (8 : ℚ)/10 ≤ completenessScore boundaryProfile ∧
    profileStrength boundaryProfile = "Good" ∧
    "Good" ≠ "Strong" := by
  have habout : jsTruthyStr boundaryProfile.about = true := by decide
  have hexp : jsLenPos boundaryProfile.experience = true := by decide
  have hedu : ¬ (jsLenPos boundaryProfile.education = true) := by decide
  have hfol : jsNumPos boundaryProfile.followers = true := by decide
  have hcon : jsNumPos boundaryProfile.connections = true := by decide
  have hscore : completenessScore boundaryProfile = (8 : ℚ)/10 := by
    rw [completenessScore, if_pos habout, if_pos hexp, if_neg hedu,
      if_pos hfol, if_pos hcon, min_eq_left (by norm_num)]
    norm_num
  refine ⟨hscore, by rw [hscore], ?_, by decide⟩
  rw [profileStrength, hscore, if_neg (by norm_num), if_pos (by norm_num)]

/-! ## Claim C10 -/

/-- Extensional characterization of the verify-stage loop: the output is the
indexed filter of the input in which a claim verified as approved is kept
with its `policy_tags` replaced by the comma-joined result tags, and a claim
verified as rejected — or whose verification throws — contributes nothing. -/
theorem verifyClaims_eq_filterMap (o : Nat → Claim → AgentOutcome)
    (cs : List Claim) (i : Nat) :
    verifyClaims o cs i = (List.enumFrom i cs).filterMap (fun q =>
      match o q.1 q.2 with
      | .result r =>
        if r.approved then some { q.2 with policy_tags := joinComma r.policy_tags }
        else none
      | .thrown => none) := by
  induction cs generalizing i with
  | nil => rfl
  | cons c rest ih =>
    rw [List.enumFrom_cons]
    cases ho : o i c with
    | thrown => simp [verifyClaims, ho, ih (i + 1)]
    | result r =>
      by_cases ha : r.approved = true <;>
        simp [verifyClaims, ho, ha, ih (i + 1)]

/-- C10: the verify stage keeps exactly the claims the compliance agent
approves — a rejected claim, or one whose verification throws, is silently
dropped (the output equals the indexed `filterMap` that maps rejection and
throw to nothing) — so the result is a subsequence of the input claim list
in which every kept claim is unchanged in every field except `policy_tags`
(id, subject, predicate, object, confidence, timestamps, and provenance are
preserved); the stage itself is total, so no exception escapes it. -/
theorem verify_stage_subsequence_only_tags_changed
    (o : Nat → Claim → AgentOutcome) (cs : List Claim) (i : Nat) :
    (verifyClaims o cs i = (List.enumFrom i cs).filterMap (fun q =>
      match o q.1 q.2 with
      | .result r =>
        if r.approved then some { q.2 with policy_tags := joinComma r.policy_tags }
        else none
      | .thrown => none)) ∧
    ((verifyClaims o cs i).map (fun c => { c with policy_tags := "" })).Sublist
      (cs.map (fun c => { c with policy_tags := "" })) ∧
    ∀ c' ∈ verifyClaims o cs i, ∃ c ∈ cs, c' = { c with policy_tags := c'.policy_tags } := by
  refine ⟨verifyClaims_eq_filterMap o cs i, ?_⟩
  induction cs generalizing i with
  | nil => exact ⟨List.Sublist.refl _, by simp [verifyClaims]⟩
  | cons c rest ih =>
    cases ho : o i c with
    | thrown =>
      constructor
      · simpa [verifyClaims, ho] using ((ih (i + 1)).1).cons _
      · intro c' hc'
        simp only [verifyClaims, ho] at hc'
        obtain ⟨cc, hmem, heq⟩ := (ih (i + 1)).2 c' hc'
        exact ⟨cc, List.mem_cons_of_mem _ hmem, heq⟩
    | result r =>
      by_cases ha : r.approved = true
      · constructor
        · have hsub := (ih (i + 1)).1
          simp only [verifyClaims, ho, ha, if_true, List.map_cons]
          exact hsub.cons₂ _
        · intro c' hc'
          simp only [verifyClaims, ho, ha, if_true] at hc'
          rcases List.mem_cons.mp hc' with hh | hh
          · subst hh
            exact ⟨c, List.mem_cons_self _ _, rfl⟩
          · obtain ⟨cc, hmem, heq⟩ := (ih (i + 1)).2 c' hh
            exact ⟨cc, List.mem_cons_of_mem _ hmem, heq⟩
      · constructor
        · simpa [verifyClaims, ho, ha] using ((ih (i + 1)).1).cons _
        · intro c' hc'
          simp only [verifyClaims, ho, ha, if_false] at hc'
          obtain ⟨cc, hmem, heq⟩ := (ih (i + 1)).2 c' hc'
          exact ⟨cc, List.mem_cons_of_mem _ hmem, heq⟩

/-- Witness for C10: the kept claim of a one-element verify run is a member
of the output, and the theorem locates its source claim in the input. -/
theorem verify_stage_subsequence_only_tags_changed_witness :
    ({ demoClaim with policy_tags := "verified:high" } ∈
      verifyClaims demoOracle [demoClaim] 0) ∧
    ∃ c ∈ [demoClaim], { demoClaim with policy_tags := "verified:high" } =
      { c with policy_tags :=
          ({ demoClaim with policy_tags := "verified:high" } : Claim).policy_tags } := by
  have hlist : verifyClaims demoOracle [demoClaim] 0 =
      [{ demoClaim with policy_tags := "verified:high" }] := rfl
  have hmem : { demoClaim with policy_tags := "verified:high" } ∈
      verifyClaims demoOracle [demoClaim] 0 := by
    rw [hlist]; exact List.mem_singleton.mpr rfl
  exact ⟨hmem,
    (verify_stage_subsequence_only_tags_changed demoOracle [demoClaim] 0).2.2
      { demoClaim with policy_tags := "verified:high" } hmem⟩

end Reconable
